import Mathlib

/-!
Verification of the sharedmem-multiarch repository: a futex-based
inter-process lock (src/src/shared.rs), a pthread-mutex based parent
(src/src/main.rs) and a 32-bit child (src/child_process/src/main.rs)
cooperating over a shared memory region.

The Rust code is shallowly embedded: atomics become explicit state
passing over natural-number lock words, the unbounded retry loops become
fuel-indexed recursive functions returning Option, and the environment
(the other process, the kernel scheduler) is a parameter giving the lock
word observed at each atomic access and the outcome of each kernel wait.
-/

namespace SharedMem

/-! ## Payload arithmetic and the protocol sequence

From src/child_process/src/main.rs line 115: the child computes
(current_number + 25) * 2. From src/src/main.rs line 177: the parent
computes current_number * 3 + 50. The payload is a 64-bit signed
integer; all values arising in the demonstrated protocol are far inside
the i64 range, so it is embedded as Int. -/

def child_op (n : Int) : Int := (n + 25) * 2

def parent_op (n : Int) : Int := n * 3 + 50

/-- From src/src/main.rs line 97: the parent writes 100 into the payload
slot before spawning the child. -/
def initial_number : Int := 100

/-- The two read-modify-write phases of the protocol in order: the child
mutates first (src/child_process/src/main.rs lines 109-121), then the
parent after the child has exited (src/src/main.rs lines 163-188).
Returns the payload value after the child step and after the parent
step. -/
def protocolRun (init : Int) : Int × Int :=
  let afterChild := child_op init
  (afterChild, parent_op afterChild)

/-! ## The futex variant: src/src/shared.rs

The lock word is the futex value, a machine integer that the code only
ever sets to 0 or 1; it is embedded as Nat. -/

/-- SharedData::new gives the futex the value 0 (Futex::new(0)). -/
def newWord : Nat := 0

/-- The compare-exchange from 0 to 1 used by lock, lock_timeout and
try_lock: the effect on the word. It writes 1 exactly when the word was
0 and leaves the word alone otherwise. -/
def casWord (w : Nat) : Nat := if w = 0 then 1 else w

/-- Whether the compare-exchange from 0 to 1 succeeds on word w. -/
def casOk (w : Nat) : Bool := w == 0

/-- SharedData::try_lock: a single compare-exchange from 0 to 1; returns
whether it succeeded together with the resulting word. -/
def try_lock (w : Nat) : Bool × Nat := (casOk w, casWord w)

/-- The store performed by SharedData::unlock on the lock word:
store(0, Release). -/
def unlockStore (_w : Nat) : Nat := 0

/-- The atomic operations SharedData::unlock performs on the futex, in
program order. -/
inductive FutexOp where
  | store (v : Nat)
  | wake (n : Nat)
deriving DecidableEq, Repr

/-- State of the futex as seen by the kernel: the word plus the number
of processes blocked in a wait on it. -/
structure LockSys where
  word : Nat
  waiters : Nat
deriving DecidableEq, Repr

/-- Effect of one futex operation: a store overwrites the word and a
wake unblocks at most n waiters; a wake never touches the word. Returns
the new state and the number of processes actually woken. -/
def runOp : FutexOp → LockSys → LockSys × Nat
  | FutexOp.store v, s => ({ s with word := v }, 0)
  | FutexOp.wake n, s =>
      let k := min n s.waiters
      ({ s with waiters := s.waiters - k }, k)

/-- Run a list of futex operations in order, accumulating the number of
processes woken. -/
def runOps : List FutexOp → LockSys → LockSys × Nat
  | [], s => (s, 0)
  | op :: rest, s =>
      let (s1, k1) := runOp op s
      let (s2, k2) := runOps rest s1
      (s2, k1 + k2)

/-- SharedData::unlock as written in src/src/shared.rs lines 68-71:
first store 0 with release ordering, then wake(1). -/
def unlockOps : List FutexOp := [FutexOp.store 0, FutexOp.wake 1]

/-- SharedData::unlock as a state transformer on the futex. -/
def unlock (s : LockSys) : LockSys × Nat := runOps unlockOps s

/-! ## SharedData::lock (src/src/shared.rs lines 28-41)

The loop alternates a compare-exchange with futex.wait(1). The
environment is a function env giving the word value observed by the
compare-exchange of each iteration, and a function ws giving the outcome
of each kernel wait: a normal wake, or one of the two errors of the wait
call (WrongValue when the futex value is not 1, Interrupted on a
signal), which the question-mark operator propagates out of lock.
Recursion is fuel-indexed since the Rust loop is unbounded; none means
the fuel ran out before the loop exited. -/

/-- Possible outcomes of one futex.wait(1) call. -/
inductive WaitRes where
  | woke
  | wrongValue
  | interrupted
deriving DecidableEq, Repr

/-- Results of lock and lock_timeout visible to the caller. -/
inductive LockRes where
  | ok
  | timedOut
  | errWrongValue
  | errInterrupted
deriving DecidableEq, Repr

/-- One run of SharedData::lock. Arguments after the schedules: fuel,
the iteration index i, and the count of kernel waits made so far. On
success it returns ok together with the total number of kernel waits
invoked. -/
def lockRun (env : Nat → Nat) (ws : Nat → WaitRes) :
    Nat → Nat → Nat → Option (LockRes × Nat)
  | 0, _, _ => none
  | fuel + 1, i, waits =>
    if env i = 0 then some (LockRes.ok, waits)
    else
      match ws i with
      | WaitRes.woke => lockRun env ws fuel (i + 1) (waits + 1)
      | WaitRes.wrongValue => some (LockRes.errWrongValue, waits + 1)
      | WaitRes.interrupted => some (LockRes.errInterrupted, waits + 1)

/-! ## SharedData::lock_timeout (src/src/shared.rs lines 43-66)

Time is discrete (one unit per tick of the wall clock used by
Instant::now and Duration). The loop first compares the elapsed time
against the timeout, then attempts the compare-exchange, then computes
the remaining budget with a saturating subtraction (Nat subtraction) and
blocks in futex.wait_for(1, remaining). The outcome of each wait_for is
given by the schedule tws: a wake after t time units, expiry of the
remaining budget (the TimedOut error, propagated by the question-mark
operator), or the WrongValue and Interrupted errors, likewise
propagated. The run counts the stores the caller performs on the lock
word (only a successful compare-exchange stores); a run that returns
with a zero store count has left the lock word untouched. -/

/-- Possible outcomes of one futex.wait_for(1, remaining) call. -/
inductive TWaitRes where
  | woke (t : Nat)
  | timedOut
  | wrongValue
  | interrupted
deriving DecidableEq, Repr

/-- One run of SharedData::lock_timeout with the given timeout.
Arguments after the schedules and the timeout: fuel, the iteration index
i, the elapsed time, and the count of stores the caller has made to the
lock word. -/
def lock_timeoutRun (env : Nat → Nat) (tws : Nat → TWaitRes) (timeout : Nat) :
    Nat → Nat → Nat → Nat → Option (LockRes × Nat)
  | 0, _, _, _ => none
  | fuel + 1, i, elapsed, stores =>
    if timeout ≤ elapsed then some (LockRes.timedOut, stores)
    else if env i = 0 then some (LockRes.ok, stores + 1)
    else
      let remaining := timeout - elapsed
      if remaining = 0 then some (LockRes.timedOut, stores)
      else
        match tws i with
        | TWaitRes.woke t => lock_timeoutRun env tws timeout fuel (i + 1) (elapsed + t) stores
        | TWaitRes.timedOut => some (LockRes.timedOut, stores)
        | TWaitRes.wrongValue => some (LockRes.errWrongValue, stores)
        | TWaitRes.interrupted => some (LockRes.errInterrupted, stores)

/-- Total time consumed by j consecutive wakes starting at iteration i,
when the wake of iteration l consumes t l time units. -/
def wakeSum (t : Nat → Nat) : Nat → Nat → Nat
  | _, 0 => 0
  | i, j + 1 => t i + wakeSum t (i + 1) j

/-! ## The kernel-mutex variant: the child acquire loop
(src/child_process/src/main.rs lines 80-107)

The child polls pthread_mutex_trylock; the schedule tl gives the result
of each trylock call (indexed by the current attempt counter, which
counts the preceding busy results). On EBUSY the counter is incremented,
compared against the bound, and on non-expiry the child sleeps 100 ms
and retries. -/

/-- Result of one pthread_mutex_trylock call. -/
inductive TrylockRes where
  | ok
  | ebusy
  | err (code : Nat)
deriving DecidableEq, Repr

/-- Outcome of the child acquire loop: success records the number of
busy attempts that preceded it and the total milliseconds slept; timeout
records the attempt counter at expiry and the milliseconds slept; failed
records the foreign error code. -/
inductive AcqRes where
  | acquired (attempts : Nat) (sleptMs : Nat)
  | timedOut (attempts : Nat) (sleptMs : Nat)
  | failed (code : Nat)
deriving DecidableEq, Repr

/-- From src/child_process/src/main.rs line 81. -/
def timeout_seconds : Nat := 10

/-- From line 83: max_attempts = timeout_seconds * 10 (100 ms intervals). -/
def max_attempts : Nat := timeout_seconds * 10

/-- From line 102: the fixed sleep between busy attempts, in ms. -/
def poll_interval_ms : Nat := 100

/-- The child acquire loop. Arguments after the schedule: fuel, the
attempt counter, and the milliseconds slept so far. -/
def childAcquireLoop (tl : Nat → TrylockRes) :
    Nat → Nat → Nat → Option AcqRes
  | 0, _, _ => none
  | fuel + 1, attempts, slept =>
    match tl attempts with
    | TrylockRes.ok => some (AcqRes.acquired attempts slept)
    | TrylockRes.ebusy =>
        if max_attempts ≤ attempts + 1 then some (AcqRes.timedOut (attempts + 1) slept)
        else childAcquireLoop tl fuel (attempts + 1) (slept + poll_interval_ms)
    | TrylockRes.err c => some (AcqRes.failed c)

/-! ## The child main sequence (src/child_process/src/main.rs lines 63-134)

After mapping the region the child performs a diagnostic read of the
payload before acquiring; a value other than 100 only produces a warning
on stderr (lines 68-73) and the child proceeds to the acquire loop
unconditionally. Inputs: the payload value n0 seen by the diagnostic
read, the payload value nLocked read under the lock, the trylock
schedule and the fuel for the acquire loop. -/

structure ChildRun where
  warned : Bool
  acq : Option AcqRes
  written : Option Int
deriving DecidableEq, Repr

def childMain (n0 nLocked : Int) (tl : Nat → TrylockRes) (fuel : Nat) : ChildRun :=
  let warned := n0 != 100
  let acq := childAcquireLoop tl fuel 0 0
  match acq with
  | some (AcqRes.acquired _ _) =>
      { warned := warned, acq := acq, written := some (child_op nLocked) }
  | _ => { warned := warned, acq := acq, written := none }

end SharedMem

/-! ## Memory layout constants

From src/src/main.rs lines 10-12 (the 64-bit parent, target x86_64) and
src/child_process/src/main.rs lines 7-9 (the 32-bit child, built for
i686-unknown-linux-gnu by build.rs). Both programs define the offsets as
integer literals, so neither depends on the platform size of
pthread_mutex_t or on the pointer width of the build. -/

namespace Parent

def MUTEX_OFFSET : Nat := 0

def NUMBER_OFFSET : Nat := 256

def SHARED_MEMORY_SIZE : Nat := 4096

/-- Pointer width in bytes of the parent build (x86_64). -/
def pointer_width : Nat := 8

/-- get_mutex_ptr: shared_ptr.add(MUTEX_OFFSET), as a byte offset. -/
def get_mutex_off (base : Nat) : Nat := base + MUTEX_OFFSET

/-- get_number_ptr: shared_ptr.add(NUMBER_OFFSET), as a byte offset. -/
def get_number_off (base : Nat) : Nat := base + NUMBER_OFFSET

end Parent

namespace Child

def MUTEX_OFFSET : Nat := 0

def NUMBER_OFFSET : Nat := 256

def SHARED_MEMORY_SIZE : Nat := 4096

/-- Pointer width in bytes of the child build (i686). -/
def pointer_width : Nat := 4

def get_mutex_off (base : Nat) : Nat := base + MUTEX_OFFSET

def get_number_off (base : Nat) : Nat := base + NUMBER_OFFSET

end Child

namespace SharedMem

/-! ## Two-process interleaved semantics of the futex lock

Each participant is in one of three local states; acquisition happens
only through the atomic compare-exchange from 0 to 1 and release only
through the store of 0, both taken as atomic transitions. A blocked or
spuriously woken waiter re-runs the compare-exchange, which is the
identity on the state when the word is not 0, so failed attempts need no
transition of their own. -/

inductive PState where
  | idle
  | trying
  | holding
deriving DecidableEq, Repr

structure SysState where
  word : Nat
  p1 : PState
  p2 : PState
deriving DecidableEq, Repr

/-- Both processes start outside the lock with the futex at
Futex::new(0). -/
def initState : SysState := { word := newWord, p1 := PState.idle, p2 := PState.idle }

/-- Interleaved atomic transitions of the two participants. -/
inductive Step : SysState → SysState → Prop
  | call1 (s : SysState) : s.p1 = PState.idle → Step s { s with p1 := PState.trying }
  | acquire1 (s : SysState) : s.p1 = PState.trying → s.word = 0 →
      Step s { s with word := 1, p1 := PState.holding }
  | release1 (s : SysState) : s.p1 = PState.holding →
      Step s { s with word := unlockStore s.word, p1 := PState.idle }
  | call2 (s : SysState) : s.p2 = PState.idle → Step s { s with p2 := PState.trying }
  | acquire2 (s : SysState) : s.p2 = PState.trying → s.word = 0 →
      Step s { s with word := 1, p2 := PState.holding }
  | release2 (s : SysState) : s.p2 = PState.holding →
      Step s { s with word := unlockStore s.word, p2 := PState.idle }

/-- States reachable from the initial state by interleaved steps. -/
inductive Reachable : SysState → Prop
  | init : Reachable initState
  | step {s s2 : SysState} : Reachable s → Step s s2 → Reachable s2

/-- The lock word only ever holds 0 or 1. -/
def wordInv (w : Nat) : Prop := w = 0 ∨ w = 1

/-- The inductive invariant of the two-process system: a zero word means
nobody holds the lock, the two participants never hold it together, and
the word stays in {0, 1}. -/
def Inv (s : SysState) : Prop :=
  (s.word = 0 → s.p1 ≠ PState.holding ∧ s.p2 ≠ PState.holding) ∧
  ¬(s.p1 = PState.holding ∧ s.p2 = PState.holding) ∧
  wordInv s.word

lemma inv_init : Inv initState := by
  refine ⟨fun _ => ⟨?_, ?_⟩, ?_, Or.inl rfl⟩ <;> simp [initState]

lemma step_inv {s s2 : SysState} (h : Inv s) (hs : Step s s2) : Inv s2 := by
  obtain ⟨h0, hmx, hw⟩ := h
  cases hs with
  | call1 hp =>
      exact ⟨fun hz => ⟨by simp [hp], (h0 hz).2⟩, fun hc => hmx ⟨by simp [hp] at hc, hc.2⟩, hw⟩
  | acquire1 hp hz =>
      exact ⟨fun hc => by simp at hc, fun hc => absurd hc.2 (h0 hz).2, Or.inr rfl⟩
  | release1 hp =>
      refine ⟨fun _ => ⟨by simp [hp], fun hc => hmx ⟨hp, hc⟩⟩, ?_, Or.inl rfl⟩
      intro hc
      exact absurd hc.1 (by simp [hp])
  | call2 hp =>
      exact ⟨fun hz => ⟨(h0 hz).1, by simp [hp]⟩, fun hc => hmx ⟨hc.1, by simp [hp] at hc⟩, hw⟩
  | acquire2 hp hz =>
      exact ⟨fun hc => by simp at hc, fun hc => absurd hc.1 (h0 hz).1, Or.inr rfl⟩
  | release2 hp =>
      refine ⟨fun _ => ⟨fun hc => hmx ⟨hc, hp⟩, by simp [hp]⟩, ?_, Or.inl rfl⟩
      intro hc
      exact absurd hc.2 (by simp [hp])

lemma reachable_inv {s : SysState} (h : Reachable s) : Inv s := by
  induction h with
  | init => exact inv_init
  | step _ hs ih => exact step_inv ih hs

end SharedMem

namespace SharedMem

/-- Claim C1: in the interleaved two-process semantics of the futex
lock, every reachable state has at most one participant in the holding
local state, so two acquire-to-release intervals never overlap. -/
theorem mutual_exclusion (s : SysState) (h : Reachable s) :
    ¬(s.p1 = PState.holding ∧ s.p2 = PState.holding) :=
  (reachable_inv h).2.1

theorem mutual_exclusion_witness :
    ¬(({ word := 1, p1 := PState.holding, p2 := PState.idle } : SysState).p1 = PState.holding ∧
      ({ word := 1, p1 := PState.holding, p2 := PState.idle } : SysState).p2 = PState.holding) :=
  mutual_exclusion _
    (Reachable.step (Reachable.step Reachable.init (Step.call1 _ rfl))
      (Step.acquire1 _ rfl rfl))

/-- Claim C2: starting from the payload value 100 written by the
creator, the child step yields (100 + 25) * 2 = 250 and the parent step
then yields 250 * 3 + 50 = 800, the final payload value. -/
theorem protocol_final_value :
    protocolRun initial_number = (250, 800) := by decide

end SharedMem

namespace SharedMem

/-- Claim C5: unlock performs the store of 0 first and the wake second,
the wake count is exactly 1 so at most one waiter is woken, and a wake
never changes the lock word, so with no waiters the wake has no effect
on it. -/
theorem unlock_store_then_wake :
    unlockOps = [FutexOp.store 0, FutexOp.wake 1] ∧
    (∀ s : LockSys, (unlock s).1.word = 0) ∧
    (∀ s : LockSys, (unlock s).2 = min 1 s.waiters) ∧
    (∀ (n : Nat) (s : LockSys), (runOp (FutexOp.wake n) s).1.word = s.word) := by
  refine ⟨rfl, fun s => rfl, fun s => ?_, fun n s => rfl⟩
  simp [unlock, unlockOps, runOps, runOp]

/-- Claim C8: the parent and the child agree byte for byte on the layout
of the 4096-byte region: the mutex at offset 0 and the 64-bit payload at
offset 256, which fits inside the region; the offsets are the same
although the two builds have different pointer widths, because both are
fixed literals independent of the mutex object size. -/
theorem layout_agree :
    Parent.MUTEX_OFFSET = 0 ∧ Child.MUTEX_OFFSET = 0 ∧
    Parent.NUMBER_OFFSET = 256 ∧ Child.NUMBER_OFFSET = 256 ∧
    Parent.SHARED_MEMORY_SIZE = 4096 ∧ Child.SHARED_MEMORY_SIZE = 4096 ∧
    (∀ base, Parent.get_mutex_off base = Child.get_mutex_off base) ∧
    (∀ base, Parent.get_number_off base = Child.get_number_off base) ∧
    Parent.NUMBER_OFFSET + 8 ≤ Parent.SHARED_MEMORY_SIZE ∧
    Parent.pointer_width ≠ Child.pointer_width :=
  ⟨rfl, rfl, rfl, rfl, rfl, rfl, fun _ => rfl, fun _ => rfl, by decide, by decide⟩

/-- Claim C7: the futex word starts at 0 and every operation of
SharedData keeps it in {0, 1}: the compare-exchange (the only write of
lock, lock_timeout and try_lock) writes 1, unlock writes 0, and in the
interleaved two-process semantics every reachable word is 0 or 1. -/
theorem lock_word_zero_one :
    wordInv newWord ∧
    (∀ w, wordInv w → wordInv (casWord w)) ∧
    (∀ w, wordInv w → wordInv (try_lock w).2) ∧
    (∀ w, wordInv (unlockStore w)) ∧
    (∀ s : LockSys, wordInv (unlock s).1.word) ∧
    (∀ s : SysState, Reachable s → wordInv s.word) := by
  refine ⟨Or.inl rfl, fun w hv => ?_, fun w hv => ?_, fun w => Or.inl rfl,
    fun s => Or.inl rfl, fun s hs => (reachable_inv hs).2.2⟩
  · rcases hv with h | h <;> simp [casWord, wordInv, h]
  · rcases hv with h | h <;> simp [try_lock, casWord, wordInv, h]

theorem lock_word_zero_one_witness :
    wordInv (casWord 0) ∧ wordInv initState.word :=
  ⟨lock_word_zero_one.2.1 0 (Or.inl rfl),
   lock_word_zero_one.2.2.2.2.2 initState Reachable.init⟩

end SharedMem

namespace SharedMem

lemma lock_timeoutRun_held (env : Nat → Nat) (tws : Nat → TWaitRes) (timeout : Nat)
    (henv : ∀ j, env j ≠ 0)
    (htws : ∀ j, tws j = TWaitRes.timedOut ∨ ∃ t, 1 ≤ t ∧ tws j = TWaitRes.woke t) :
    ∀ fuel i elapsed stores, timeout ≤ elapsed + fuel →
      lock_timeoutRun env tws timeout (fuel + 1) i elapsed stores =
        some (LockRes.timedOut, stores) := by
  intro fuel
  induction fuel with
  | zero =>
      intro i elapsed stores hle
      simp only [Nat.add_zero] at hle
      simp [lock_timeoutRun, hle]
  | succ k ih =>
      intro i elapsed stores hle
      by_cases htop : timeout ≤ elapsed
      · simp [lock_timeoutRun, htop]
      · have hrem : ¬(timeout - elapsed = 0) := by omega
        rcases htws i with hw | ⟨t, ht, hw⟩
        · set f := k + 1 with hf
          clear_value f
          simp [lock_timeoutRun, htop, henv i, hrem, hw]
        · have hrec := ih (i + 1) (elapsed + t) stores (by omega)
          set f := k + 1 with hf
          clear_value f
          simp [lock_timeoutRun, htop, henv i, hrem, hw, hrec]

/-- Claim C3: if the lock word is 1 for the whole call (the holder never
releases) and every kernel wait either expires or wakes after a nonzero
delay, then lock_timeout returns the TimedOut error and performs zero
stores to the lock word, leaving it unchanged at 1. The fuel timeout + 1
always suffices because each wait consumes at least one time unit. -/
theorem lock_timeout_expires (env : Nat → Nat) (tws : Nat → TWaitRes) (timeout : Nat)
    (henv : ∀ j, env j = 1)
    (htws : ∀ j, tws j = TWaitRes.timedOut ∨ ∃ t, 1 ≤ t ∧ tws j = TWaitRes.woke t) :
    lock_timeoutRun env tws timeout (timeout + 1) 0 0 0 =
      some (LockRes.timedOut, 0) :=
  lock_timeoutRun_held env tws timeout (fun j => by simp [henv j]) htws
    timeout 0 0 0 (by omega)

theorem lock_timeout_expires_witness :
    lock_timeoutRun (fun _ => 1) (fun _ => TWaitRes.timedOut) 5 6 0 0 0 =
      some (LockRes.timedOut, 0) :=
  lock_timeout_expires (fun _ => 1) (fun _ => TWaitRes.timedOut) 5
    (fun _ => rfl) (fun _ => Or.inl rfl)

lemma lockRun_waits (env : Nat → Nat) (ws : Nat → WaitRes) :
    ∀ k i waits, (∀ j, j < k → env (i + j) ≠ 0) → (∀ j, j < k → ws (i + j) = WaitRes.woke) →
      env (i + k) = 0 →
      lockRun env ws (k + 1) i waits = some (LockRes.ok, waits + k) := by
  intro k
  induction k with
  | zero =>
      intro i waits _ _ hk
      simp only [Nat.add_zero] at hk
      simp [lockRun, hk]
  | succ m ih =>
      intro i waits henv hws hk
      have h0 : env i ≠ 0 := by simpa using henv 0 (Nat.succ_pos m)
      have hw0 : ws i = WaitRes.woke := by simpa using hws 0 (Nat.succ_pos m)
      have hrec := ih (i + 1) (waits + 1)
        (fun j hj => by
          have := henv (j + 1) (Nat.succ_lt_succ hj)
          simpa [Nat.add_assoc, Nat.add_comm 1 j] using this)
        (fun j hj => by
          have := hws (j + 1) (Nat.succ_lt_succ hj)
          simpa [Nat.add_assoc, Nat.add_comm 1 j] using this)
        (by simpa [Nat.add_assoc, Nat.add_comm 1 m] using hk)
      set f := m + 1 with hf
      clear_value f
      simp only [lockRun, if_neg h0, hw0]
      rw [hrec]
      congr 2
      omega

lemma lock_timeoutRun_wakes (env : Nat → Nat) (tws : Nat → TWaitRes) (t : Nat → Nat)
    (timeout : Nat) :
    ∀ k i elapsed stores,
      (∀ j, j < k → env (i + j) ≠ 0) →
      (∀ j, j < k → tws (i + j) = TWaitRes.woke (t (i + j))) →
      env (i + k) = 0 →
      (∀ j, j ≤ k → elapsed + wakeSum t i j < timeout) →
      lock_timeoutRun env tws timeout (k + 1) i elapsed stores =
        some (LockRes.ok, stores + 1) := by
  intro k
  induction k with
  | zero =>
      intro i elapsed stores _ _ hk htime
      have h0 : elapsed < timeout := by simpa [wakeSum] using htime 0 (Nat.le_refl 0)
      have htop : ¬timeout ≤ elapsed := by omega
      simp only [Nat.add_zero] at hk
      simp [lock_timeoutRun, htop, hk]
  | succ m ih =>
      intro i elapsed stores henv htws hk htime
      have h0e : env i ≠ 0 := by simpa using henv 0 (Nat.succ_pos m)
      have h0w : tws i = TWaitRes.woke (t i) := by simpa using htws 0 (Nat.succ_pos m)
      have h0 : elapsed < timeout := by simpa [wakeSum] using htime 0 (Nat.zero_le _)
      have htop : ¬timeout ≤ elapsed := by omega
      have hrem : ¬(timeout - elapsed = 0) := by omega
      have hrec := ih (i + 1) (elapsed + t i) stores
        (fun j hj => by
          have := henv (j + 1) (Nat.succ_lt_succ hj)
          simpa [Nat.add_assoc, Nat.add_comm 1 j] using this)
        (fun j hj => by
          have := htws (j + 1) (Nat.succ_lt_succ hj)
          simpa [Nat.add_assoc, Nat.add_comm 1 j] using this)
        (by simpa [Nat.add_assoc, Nat.add_comm 1 m] using hk)
        (fun j hj => by
          have := htime (j + 1) (Nat.succ_le_succ hj)
          simpa [wakeSum, Nat.add_assoc] using this)
      set f := m + 1 with hf
      clear_value f
      simp [lock_timeoutRun, htop, h0e, hrem, h0w, hrec]

/-- Claim C4: for both lock and lock_timeout the uncontended path is one
successful compare-exchange: lock returns ok with zero kernel waits, and
lock_timeout with a positive budget returns ok on its first
compare-exchange with the same result for every wait schedule, so no
kernel wait is consulted. Under contention, after each of the k failed
compare-exchanges the caller blocks in a kernel wait, and each wake
loops back to a fresh compare-exchange, which is the only way either
call returns ok: for lock the k wakes are counted, and for lock_timeout
the k wakes consume time within the budget and success still comes from
the compare-exchange of iteration k. -/
theorem lock_cas_fast_path_and_recheck :
    (∀ (env : Nat → Nat) (ws : Nat → WaitRes) (fuel : Nat), env 0 = 0 →
        lockRun env ws (fuel + 1) 0 0 = some (LockRes.ok, 0)) ∧
    (∀ (env : Nat → Nat) (ws : Nat → WaitRes) (k : Nat),
        (∀ j, j < k → env j ≠ 0) → (∀ j, j < k → ws j = WaitRes.woke) → env k = 0 →
        lockRun env ws (k + 1) 0 0 = some (LockRes.ok, k)) ∧
    (∀ (env : Nat → Nat) (timeout fuel stores : Nat), env 0 = 0 → 0 < timeout →
        ∀ tws : Nat → TWaitRes,
          lock_timeoutRun env tws timeout (fuel + 1) 0 0 stores =
            some (LockRes.ok, stores + 1)) ∧
    (∀ (env : Nat → Nat) (tws : Nat → TWaitRes) (t : Nat → Nat) (timeout k stores : Nat),
        (∀ j, j < k → env j ≠ 0) → (∀ j, j < k → tws j = TWaitRes.woke (t j)) →
        env k = 0 → (∀ j, j ≤ k → wakeSum t 0 j < timeout) →
        lock_timeoutRun env tws timeout (k + 1) 0 0 stores =
          some (LockRes.ok, stores + 1)) := by
  refine ⟨?_, ?_, ?_, ?_⟩
  · intro env ws fuel h
    simp [lockRun, h]
  · intro env ws k henv hws hk
    have := lockRun_waits env ws k 0 0 (by simpa using henv) (by simpa using hws)
      (by simpa using hk)
    simpa using this
  · intro env timeout fuel stores h htpos tws
    have htop : ¬timeout ≤ 0 := by omega
    simp [lock_timeoutRun, htop, h]
  · intro env tws t timeout k stores henv htws hk htime
    have := lock_timeoutRun_wakes env tws t timeout k 0 0 stores
      (by simpa using henv) (by simpa using htws) (by simpa using hk)
      (by simpa using htime)
    simpa using this

theorem lock_cas_fast_path_and_recheck_witness :
    lockRun (fun i => 1 - i) (fun _ => WaitRes.woke) 2 0 0 = some (LockRes.ok, 1) ∧
    lock_timeoutRun (fun i => 1 - i) (fun _ => TWaitRes.woke 1) 5 2 0 0 0 =
      some (LockRes.ok, 1) :=
  ⟨lock_cas_fast_path_and_recheck.2.1 (fun i => 1 - i) (fun _ => WaitRes.woke) 1
      (fun j hj => by show 1 - j ≠ 0; omega)
      (fun _ _ => rfl) rfl,
   lock_cas_fast_path_and_recheck.2.2.2 (fun i => 1 - i) (fun _ => TWaitRes.woke 1)
      (fun _ => 1) 5 1 0
      (fun j hj => by show 1 - j ≠ 0; omega)
      (fun _ _ => rfl) rfl
      (fun j hj => by interval_cases j <;> simp [wakeSum])⟩

end SharedMem

namespace SharedMem

lemma childAcquireLoop_busy (tl : Nat → TrylockRes) (h : ∀ i, tl i = TrylockRes.ebusy) :
    ∀ fuel attempts slept, attempts + fuel = max_attempts → 1 ≤ fuel →
      childAcquireLoop tl fuel attempts slept =
        some (AcqRes.timedOut max_attempts (slept + (fuel - 1) * poll_interval_ms)) := by
  intro fuel
  induction fuel with
  | zero => intro attempts slept _ hpos; omega
  | succ k ih =>
      intro attempts slept htot _
      rcases Nat.eq_zero_or_pos k with hk | hk
      · subst hk
        have ha : attempts + 1 = max_attempts := by omega
        simp [childAcquireLoop, h attempts, ha]
      · have hlt : ¬(max_attempts ≤ attempts + 1) := by omega
        have hrec := ih (attempts + 1) (slept + poll_interval_ms) (by omega) hk
        set f := k with hf
        clear_value f
        simp only [childAcquireLoop, h attempts, if_neg hlt]
        rw [hrec]
        congr 2
        have h1 : 1 ≤ f := hk
        cases f with
        | zero => omega
        | succ j => simp [Nat.succ_sub_one]; ring

lemma childAcquireLoop_total (tl : Nat → TrylockRes) :
    ∀ fuel attempts slept, max_attempts ≤ attempts + fuel → 1 ≤ fuel →
      (childAcquireLoop tl fuel attempts slept).isSome = true := by
  intro fuel
  induction fuel with
  | zero => intro attempts slept _ hpos; omega
  | succ k ih =>
      intro attempts slept hle _
      by_cases hstop : max_attempts ≤ attempts + 1
      · cases htl : tl attempts <;> simp [childAcquireLoop, htl, hstop]
      · have hk : 1 ≤ k := by omega
        have hrec := ih (attempts + 1) (slept + poll_interval_ms) (by omega) hk
        set f := k with hf
        clear_value f
        cases htl : tl attempts <;>
          simp [childAcquireLoop, htl, hstop, hrec]

/-- Claim C6: the child acquire is bounded polling: with every trylock
returning EBUSY it fails with a timeout after exactly max_attempts = 100
busy attempts, sleeping the fixed 100 ms interval between attempts
(99 sleeps, 9900 ms), where 100 attempts times 100 ms equals the 10 s
budget; and for every trylock schedule the loop terminates within
max_attempts calls. -/
theorem child_acquire_bounded_polling :
    (∀ tl, (∀ i, tl i = TrylockRes.ebusy) →
        childAcquireLoop tl max_attempts 0 0 =
          some (AcqRes.timedOut max_attempts ((max_attempts - 1) * poll_interval_ms))) ∧
    (∀ tl, (childAcquireLoop tl max_attempts 0 0).isSome = true) ∧
    max_attempts = timeout_seconds * 10 ∧ max_attempts = 100 ∧
    max_attempts * poll_interval_ms = timeout_seconds * 1000 := by
  refine ⟨fun tl h => ?_, fun tl => ?_, rfl, by decide, by decide⟩
  · simpa using childAcquireLoop_busy tl h max_attempts 0 0 (by decide) (by decide)
  · exact childAcquireLoop_total tl max_attempts 0 0 (by decide) (by decide)

theorem child_acquire_bounded_polling_witness :
    childAcquireLoop (fun _ => TrylockRes.ebusy) max_attempts 0 0 =
      some (AcqRes.timedOut 100 9900) := by
  simpa using child_acquire_bounded_polling.1 (fun _ => TrylockRes.ebusy) (fun _ => rfl)

/-- Claim C9: a diagnostic pre-acquire read of a payload value other
than 100 only sets the warning; the child still runs the identical
acquire loop and, on success, still writes child_op of the value read
under the lock, exactly as when the diagnostic read sees 100. -/
theorem child_warning_nonfatal (n0 nLocked : Int) (tl : Nat → TrylockRes) (fuel : Nat)
    (h : n0 ≠ 100) :
    (childMain n0 nLocked tl fuel).warned = true ∧
    (childMain n0 nLocked tl fuel).acq = (childMain 100 nLocked tl fuel).acq ∧
    (childMain n0 nLocked tl fuel).written = (childMain 100 nLocked tl fuel).written := by
  cases hacq : childAcquireLoop tl fuel 0 0 with
  | none => simp [childMain, hacq, h]
  | some r => cases r <;> simp [childMain, hacq, h]

theorem child_warning_nonfatal_witness :
    (childMain 42 100 (fun _ => TrylockRes.ok) 1).warned = true ∧
    (childMain 42 100 (fun _ => TrylockRes.ok) 1).acq =
      (childMain 100 100 (fun _ => TrylockRes.ok) 1).acq ∧
    (childMain 42 100 (fun _ => TrylockRes.ok) 1).written =
      (childMain 100 100 (fun _ => TrylockRes.ok) 1).written :=
  child_warning_nonfatal 42 100 (fun _ => TrylockRes.ok) 1 (by decide)

/-- Claim C10: with a zero timeout, lock_timeout returns the TimedOut
error at the initial elapsed-time check, before any compare-exchange,
for every environment and schedule, with zero stores to the lock word;
on the same word value 0, try_lock succeeds and sets the word to 1. -/
theorem lock_timeout_zero_budget :
    (∀ (env : Nat → Nat) (tws : Nat → TWaitRes) (fuel i elapsed stores : Nat),
        lock_timeoutRun env tws 0 (fuel + 1) i elapsed stores =
          some (LockRes.timedOut, stores)) ∧
    try_lock 0 = (true, 1) := by
  refine ⟨fun env tws fuel i elapsed stores => ?_, rfl⟩
  simp [lock_timeoutRun]

end SharedMem
